import Mathlib

/-!
Verification of the blogicum view/permission/query logic
(`blog/views.py`, `blog/forms.py`, `blog/migrations/0004_auto_20241031_2118.py`,
`blogicum/urls.py`), shallowly embedded in Lean 4.

Conventions of the embedding:
* Rows of the four relational tables become structures over `Nat` ids,
  `Int` timestamps and `String` texts; the database is a record of lists.
* A viewer is `Option Nat` (`none` = anonymous `AnonymousUser`, which never
  equals a real user).
* Django's `order_by` becomes `List.insertionSort` (a stable sort, as
  Django's SQL ordering is deterministic on distinct keys and `order_by` is
  stable in the sense needed by the claims, which only concern membership
  and sortedness).
* Read-only views return `Except Fault _` (`Http404` = `.error .notFound`);
  mutating views return the updated database paired with a `Resp`
  (`PermissionDenied` from `UserPassesTestMixin` on an authenticated user
  = `.forbidden`, `Http404` = `.notFound`).
* A redirect URL is a `Url`: a path plus an optional anchor fragment. The
  source builds anchors by string concatenation (`url + f"#comment{id}"`);
  since `reverse(...)` never yields a `#`, splitting the URL at the `#` the
  code writes is a faithful representation.
-/

/-- A row of the user table (`django.contrib.auth.models.User`):
the fields the views and `UserProfileForm` touch. -/
structure UserRec where
  id : Nat
  username : String
  first_name : String
  last_name : String
  email : String
deriving DecidableEq

/-- A row of the category table: the fields the views touch
(`slug`, `is_published`). -/
structure Category where
  id : Nat
  slug : String
  is_published : Bool
deriving DecidableEq

/-- A row of the post table: the fields the views and `PostForm` touch.
`author` and `category` are foreign-key ids. The optional `location` and
`image` fields are not read by any view logic under verification and are
omitted. -/
structure Post where
  id : Nat
  title : String
  text : String
  pub_date : Int
  is_published : Bool
  author : Nat
  category : Nat
deriving DecidableEq

/-- A row of the comment table, per migration `0004` (`CreateModel Comment`):
auto `id`, `text`, auto-set `created_at`, foreign keys `author`, `post`. -/
structure Comment where
  id : Nat
  text : String
  created_at : Int
  author : Nat
  post : Nat
deriving DecidableEq

/-- The persisted store: the four tables plus the `AutoField` counters that
produce fresh primary keys on insert. -/
structure Db where
  users : List UserRec
  categories : List Category
  posts : List Post
  comments : List Comment
  nextPostId : Nat
  nextCommentId : Nat
deriving DecidableEq

/-- A redirect target: path plus optional `#anchor` fragment. -/
structure Url where
  path : String
  anchor : Option String
deriving DecidableEq

/-- Response of a mutating view: a redirect, `Http404`, or
`PermissionDenied` (403). -/
inductive Resp where
  | redirect (url : Url)
  | notFound
  | forbidden
deriving DecidableEq

/-- Failure of a read-only view (`Http404`). -/
inductive Fault where
  | notFound
deriving DecidableEq

/-- Modelled from the spec: route `GET /posts/{post_id}/` (section 6);
`blog/urls.py` is absent from the sources, only `views.py` names the route
via `reverse("blog:post_detail", ...)`. -/
def postDetailUrl (post_id : Nat) : Url :=
  { path := "/posts/" ++ Nat.repr post_id ++ "/", anchor := none }

/-- Modelled from the spec: the login page an anonymous request to a
login-required route is redirected to (section 7, "Unauthenticated");
the concrete path comes from settings absent from the sources and is
immaterial to the claims. -/
def loginUrl : Url :=
  { path := "/auth/login/", anchor := none }

/-- Modelled from the spec: route `GET /` (home listing, section 6). -/
def indexUrl : Url :=
  { path := "/", anchor := none }

/-- Modelled from the spec: route `GET /profile/{username}/` (section 6). -/
def profileUrl (username : String) : Url :=
  { path := "/profile/" ++ username ++ "/", anchor := none }

/-- Appending `"#" ++ a` to a URL, as the comment views do by string
concatenation. -/
def withAnchor (u : Url) (a : String) : Url :=
  { u with anchor := some a }

/-- The SQL join behind `category__is_published=True` /
`obj.category.is_published`: look the post's category row up by id. -/
def categoryPublished (db : Db) (p : Post) : Bool :=
  match db.categories.find? (fun c => c.id == p.category) with
  | some c => c.is_published
  | none => false

/-- The visibility predicate of spec section 4.1, stated in the spec's own
words: `post.is_published AND post.category.is_published AND
post.pub_date <= now`. -/
def is_visible_to_public (db : Db) (p : Post) (now : Int) : Bool :=
  p.is_published && categoryPublished db p && decide (p.pub_date ≤ now)

/-- `order_by("-pub_date")`: newest first. -/
def pubDateGe (a b : Post) : Prop := b.pub_date ≤ a.pub_date

instance : DecidableRel pubDateGe :=
  fun a b => inferInstanceAs (Decidable (b.pub_date ≤ a.pub_date))

instance : IsTotal Post pubDateGe :=
  ⟨fun a b => Int.le_total b.pub_date a.pub_date⟩

instance : IsTrans Post pubDateGe :=
  ⟨fun _ _ _ h1 h2 => le_trans h2 h1⟩

/-- `order_by("-pub_date")` applied to a query result. -/
def orderByPubDateDesc (l : List Post) : List Post :=
  List.insertionSort pubDateGe l

/-- Modelled from the spec: comments "ordered by creation time (ascending)"
(section 4.3). The default ordering of the `Comment` model lives in
`blog/models.py`, which is absent from the sources; migration `0004` shows
the `created_at` column. -/
def createdAtLe (a b : Comment) : Prop := a.created_at ≤ b.created_at

instance : DecidableRel createdAtLe :=
  fun a b => inferInstanceAs (Decidable (a.created_at ≤ b.created_at))

instance : IsTotal Comment createdAtLe :=
  ⟨fun a b => Int.le_total a.created_at b.created_at⟩

instance : IsTrans Comment createdAtLe :=
  ⟨fun _ _ _ h1 h2 => le_trans h1 h2⟩

/-- `PostListView.get_queryset` (home listing): filter
`is_published & category__is_published & pub_date <= now`, order by
`-pub_date`. (The `comment_count` annotation decorates each row and does
not affect which posts appear; no claim mentions it.) -/
def postListQueryset (db : Db) (now : Int) : List Post :=
  orderByPubDateDesc (db.posts.filter (fun p =>
    p.is_published && categoryPublished db p && decide (p.pub_date ≤ now)))

/-- `CategoryPostsView.get_queryset`: `get_object_or_404(Category,
slug=..., is_published=True)`, then filter posts by `category=self.category
& is_published & category__is_published & pub_date <= now`, order by
`-pub_date`. -/
def categoryPostsQueryset (db : Db) (slug : String) (now : Int) :
    Except Fault (Category × List Post) :=
  match db.categories.find? (fun c => c.slug == slug && c.is_published) with
  | none => .error .notFound
  | some cat =>
    .ok (cat, orderByPubDateDesc (db.posts.filter (fun p =>
      p.category == cat.id && p.is_published && categoryPublished db p
        && decide (p.pub_date ≤ now))))

/-- `ProfileView.get_queryset`: `get_object_or_404(User, username=...)`;
owner sees all own posts, others see the publicly visible ones; order by
`-pub_date`. -/
def profileQueryset (db : Db) (username : String) (viewer : Option Nat)
    (now : Int) : Except Fault (UserRec × List Post) :=
  match db.users.find? (fun u => u.username == username) with
  | none => .error .notFound
  | some profile =>
    if viewer = some profile.id then
      .ok (profile, orderByPubDateDesc
        (db.posts.filter (fun p => p.author == profile.id)))
    else
      .ok (profile, orderByPubDateDesc
        ((db.posts.filter (fun p => p.author == profile.id)).filter (fun p =>
          p.is_published && categoryPublished db p
            && decide (p.pub_date ≤ now))))

/-- The context `PostDetailView.get_context_data` assembles: the post, an
empty `CommentForm()` (its single field `text`, initially empty), and
`self.object.comments.select_related("author")` — the post's comments in
the model's default order, each paired with its resolved author row. -/
structure DetailContext where
  post : Post
  form_text : String
  comments : List (Comment × Option UserRec)
deriving DecidableEq

/-- `self.object.comments.select_related("author")`: the comments of a
post in `created_at`-ascending default order (see `createdAtLe`), each with
its author row resolved. -/
def commentsWithAuthors (db : Db) (p : Post) : List (Comment × Option UserRec) :=
  (List.insertionSort createdAtLe
      (db.comments.filter (fun c => c.post == p.id))).map
    (fun c => (c, db.users.find? (fun u => u.id == c.author)))

/-- `PostDetailView.get_object` + `get_context_data`: fetch by `post_id`
(404 if absent); if the post is unpublished, its category unpublished, or
its `pub_date` in the future, a viewer other than the author gets 404;
otherwise the detail context. -/
def postDetailView (db : Db) (post_id : Nat) (viewer : Option Nat)
    (now : Int) : Except Fault DetailContext :=
  match db.posts.find? (fun p => p.id == post_id) with
  | none => .error .notFound
  | some obj =>
    if !obj.is_published || !categoryPublished db obj
        || decide (now < obj.pub_date) then
      if viewer ≠ some obj.author then .error .notFound
      else .ok { post := obj, form_text := "", comments := commentsWithAuthors db obj }
    else .ok { post := obj, form_text := "", comments := commentsWithAuthors db obj }

/-- A valid `PostForm` submission: the fields the form binds that the
claims read (`location` and `image` are optional decorations no claim
mentions). -/
structure PostFormData where
  title : String
  text : String
  pub_date : Int
  category : Nat
deriving DecidableEq

/-- A valid `UserProfileForm` submission: `first_name`, `last_name`,
`email`. -/
structure ProfileFormData where
  first_name : String
  last_name : String
  email : String
deriving DecidableEq

/-- `self.request.user.username` for success-URL construction. -/
def usernameOf (db : Db) (u : Nat) : String :=
  ((db.users.find? (fun r => r.id == u)).map (fun r => r.username)).getD ""

/-- `PostCreateView` (`LoginRequiredMixin`): anonymous → redirect to login;
otherwise insert a fresh post with `author = request.user` and redirect to
the author's profile. `is_published` is not a form field; the model default
(absent `models.py`) does not matter to any claim and is taken as `true`. -/
def postCreateView (db : Db) (viewer : Option Nat) (data : PostFormData) :
    Db × Resp :=
  match viewer with
  | none => (db, .redirect loginUrl)
  | some u =>
    let pid := db.nextPostId
    let newPost : Post :=
      { id := pid, title := data.title, text := data.text,
        pub_date := data.pub_date, is_published := true,
        author := u, category := data.category }
    ({ db with posts := db.posts ++ [newPost], nextPostId := pid + 1 },
     .redirect (profileUrl (usernameOf db u)))

/-- `PostEditView.dispatch`: runs first (before `LoginRequiredMixin`'s
check), calls `get_object` — `Http404` if the post is absent, `None` if
`obj.author != request.user` — and on `None` redirects to the post's detail
page with the URL-supplied `post_id`. Only when the viewer IS the author
(hence authenticated, so the login check passes) does the edit proceed; a
valid submission updates the form fields and redirects to
`self.object.id`'s detail page. -/
def postEditView (db : Db) (post_id : Nat) (viewer : Option Nat)
    (data : PostFormData) : Db × Resp :=
  match db.posts.find? (fun p => p.id == post_id) with
  | none => (db, .notFound)
  | some obj =>
    if viewer ≠ some obj.author then
      (db, .redirect (postDetailUrl post_id))
    else
      let upd :=
        { obj with
            title := data.title
            text := data.text
            pub_date := data.pub_date
            category := data.category }
      ({ db with posts := db.posts.map (fun p => if p.id == post_id then upd else p) },
       .redirect (postDetailUrl obj.id))

/-- `PostDeleteView` (`LoginRequiredMixin`, then `UserPassesTestMixin` with
`test_func : user == post.author`): anonymous → login redirect; absent post
→ 404 (from `get_object` inside `test_func`); authenticated non-author →
`PermissionDenied`; author → delete (comments cascade per migration
`on_delete=CASCADE`) and redirect to the home page. -/
def postDeleteView (db : Db) (post_id : Nat) (viewer : Option Nat) :
    Db × Resp :=
  match viewer with
  | none => (db, .redirect loginUrl)
  | some u =>
    match db.posts.find? (fun p => p.id == post_id) with
    | none => (db, .notFound)
    | some p =>
      if u = p.author then
        ({ db with
            posts := db.posts.filter (fun q => q.id != post_id)
            comments := db.comments.filter (fun c => c.post != post_id) },
         .redirect indexUrl)
      else (db, .forbidden)

/-- `CommentCreateView` (`LoginRequiredMixin`): anonymous → login redirect;
`form_valid` does `get_object_or_404(Post, id=post_id)`, sets
`instance.post` and `instance.author`; `get_success_url` is the detail page
of the URL-supplied `post_id` plus `f"#comment{self.object.id}"`. -/
def commentCreateView (db : Db) (post_id : Nat) (viewer : Option Nat)
    (text : String) (now : Int) : Db × Resp :=
  match viewer with
  | none => (db, .redirect loginUrl)
  | some u =>
    match db.posts.find? (fun p => p.id == post_id) with
    | none => (db, .notFound)
    | some post =>
      let cid := db.nextCommentId
      let c : Comment :=
        { id := cid, text := text, created_at := now, author := u, post := post.id }
      ({ db with comments := db.comments ++ [c], nextCommentId := cid + 1 },
       .redirect (withAnchor (postDetailUrl post_id) ("comment" ++ Nat.repr cid)))

/-- `CommentEditView` (`LoginRequiredMixin`, `UserPassesTestMixin` with
`test_func : user == comment.author`): the comment is fetched by
`comment_id` alone (`pk_url_kwarg`); the `post_id` URL parameter is never
consulted. On success, redirect to the detail page of the comment's actual
post (`self.object.post.id`) plus `f"#comment_{self.object.id}"`. -/
def commentEditView (db : Db) (post_id comment_id : Nat)
    (viewer : Option Nat) (text : String) : Db × Resp :=
  match viewer with
  | none => (db, .redirect loginUrl)
  | some u =>
    match db.comments.find? (fun c => c.id == comment_id) with
    | none => (db, .notFound)
    | some c =>
      if u = c.author then
        let upd := { c with text := text }
        ({ db with comments := db.comments.map (fun c2 => if c2.id == comment_id then upd else c2) },
         .redirect (withAnchor (postDetailUrl c.post) ("comment_" ++ Nat.repr c.id)))
      else (db, .forbidden)

/-- `CommentDeleteView` (`LoginRequiredMixin`, `UserPassesTestMixin` with
`test_func : user == comment.author`): the comment is fetched by
`comment_id` alone. On success, redirect to the detail page of the
URL-supplied `post_id` — with no anchor fragment. -/
def commentDeleteView (db : Db) (post_id comment_id : Nat)
    (viewer : Option Nat) : Db × Resp :=
  match viewer with
  | none => (db, .redirect loginUrl)
  | some u =>
    match db.comments.find? (fun c => c.id == comment_id) with
    | none => (db, .notFound)
    | some c =>
      if u = c.author then
        ({ db with comments := db.comments.filter (fun c2 => c2.id != comment_id) },
         .redirect (postDetailUrl post_id))
      else (db, .forbidden)

/-- `ProfileEditView` (`LoginRequiredMixin`): anonymous → login redirect;
`get_object` returns `request.user`, so the edited row is always the
viewer's own; a valid submission updates `first_name`, `last_name`,
`email` and redirects to the viewer's own profile page. -/
def profileEditView (db : Db) (viewer : Option Nat) (data : ProfileFormData) :
    Db × Resp :=
  match viewer with
  | none => (db, .redirect loginUrl)
  | some u =>
    let upd := fun (r : UserRec) =>
      if r.id == u then
        { r with
            first_name := data.first_name
            last_name := data.last_name
            email := data.email }
      else r
    ({ db with users := db.users.map upd },
     .redirect (profileUrl (usernameOf db u)))

/-! ### Sample data used by witnesses and counterexamples -/

/-- Sample user `alice` (id 1). -/
def uAlice : UserRec :=
  { id := 1, username := "alice", first_name := "", last_name := "", email := "" }

/-- Sample user `bob` (id 2). -/
def uBob : UserRec :=
  { id := 2, username := "bob", first_name := "", last_name := "", email := "" }

/-- Sample published category. -/
def catNews : Category := { id := 1, slug := "news", is_published := true }

/-- Sample publicly visible post by alice. -/
def pVisible : Post :=
  { id := 1, title := "t", text := "b", pub_date := 50, is_published := true,
    author := 1, category := 1 }

/-- Sample draft (`is_published = false`) post by alice, id 5. -/
def pDraft : Post :=
  { id := 5, title := "d", text := "b", pub_date := 50, is_published := false,
    author := 1, category := 1 }

/-- Sample comment by alice on post 1. -/
def cm1 : Comment := { id := 1, text := "hi", created_at := 10, author := 1, post := 1 }

/-- Sample database holding the rows above. -/
def sampleDb : Db :=
  { users := [uAlice, uBob], categories := [catNews],
    posts := [pVisible, pDraft], comments := [cm1],
    nextPostId := 6, nextCommentId := 2 }

/-- Sample valid post-form submission. -/
def pfX : PostFormData := { title := "x", text := "y", pub_date := 0, category := 1 }

/-- Sample valid profile-form submission. -/
def cfX : ProfileFormData := { first_name := "a", last_name := "b", email := "e" }

/-- The detail context the detail view produces for `pVisible` in
`sampleDb`. -/
def ctx1 : DetailContext :=
  { post := pVisible, form_text := "", comments := [(cm1, some uAlice)] }

/-! ### Helper lemmas -/

/-- Ordering a query result by `-pub_date` does not change which posts it
holds. -/
theorem mem_orderByPubDateDesc {l : List Post} {p : Post} :
    p ∈ orderByPubDateDesc l ↔ p ∈ l :=
  (List.perm_insertionSort pubDateGe l).mem_iff

/-- The hiding condition of `PostDetailView.get_object` is exactly the
negation of the visibility predicate. -/
theorem detail_hidden_cond (db : Db) (p : Post) (now : Int) :
    (!p.is_published || !categoryPublished db p || decide (now < p.pub_date))
      = !(is_visible_to_public db p now) := by
  cases hb : p.is_published <;> cases hc : categoryPublished db p <;>
    simp [is_visible_to_public, hb, hc, ← decide_not, decide_eq_decide, Int.not_le]

/-! ### Claims -/

/-- C1: a post appears in the home listing iff it satisfies
`is_visible_to_public` (post published, category published, `pub_date`
not in the future); the category listing applies the same predicate to
the posts of the requested category. -/
theorem home_and_category_listing_visibility (db : Db) (now : Int) (p : Post) :
    (p ∈ postListQueryset db now ↔
      p ∈ db.posts ∧ is_visible_to_public db p now = true)
    ∧ (∀ slug cat l, categoryPostsQueryset db slug now = .ok (cat, l) →
        (p ∈ l ↔ p ∈ db.posts ∧ p.category = cat.id
          ∧ is_visible_to_public db p now = true)) := by
  constructor
  · simp [postListQueryset, mem_orderByPubDateDesc, List.mem_filter,
      is_visible_to_public]
  · intro slug cat l h
    simp only [categoryPostsQueryset] at h
    split at h
    · exact absurd h (by simp)
    · rw [Except.ok.injEq, Prod.mk.injEq] at h
      obtain ⟨rfl, rfl⟩ := h
      simp [mem_orderByPubDateDesc, List.mem_filter, is_visible_to_public,
        Bool.and_eq_true, beq_iff_eq, and_assoc]

/-- C1 witness: concrete evaluation on `sampleDb` at `now = 100`. -/
theorem home_and_category_listing_visibility_witness :
    (pVisible ∈ postListQueryset sampleDb 100 ↔
      pVisible ∈ sampleDb.posts ∧ is_visible_to_public sampleDb pVisible 100 = true)
    ∧ (pDraft ∈ [pVisible] ↔
      pDraft ∈ sampleDb.posts ∧ pDraft.category = catNews.id
        ∧ is_visible_to_public sampleDb pDraft 100 = true) :=
  ⟨(home_and_category_listing_visibility sampleDb 100 pVisible).1,
   (home_and_category_listing_visibility sampleDb 100 pDraft).2 "news" catNews
     [pVisible] (by rfl)⟩

/-- C2: for a post that exists, the detail view answers 404 exactly when
the post fails the visibility predicate and the viewer is not its author;
in every other case it succeeds and returns that post (with its detail
context). -/
theorem post_detail_not_found_iff (db : Db) (pid : Nat) (v : Option Nat)
    (now : Int) (p : Post)
    (hp : db.posts.find? (fun q => q.id == pid) = some p) :
    (postDetailView db pid v now = .error .notFound ↔
      (is_visible_to_public db p now = false ∧ v ≠ some p.author))
    ∧ (postDetailView db pid v now = .error .notFound ∨
       postDetailView db pid v now
         = .ok { post := p, form_text := "", comments := commentsWithAuthors db p }) := by
  simp only [postDetailView, hp, detail_hidden_cond]
  by_cases hvis : is_visible_to_public db p now = true
  · rw [hvis]
    simp [hvis]
  · rw [Bool.not_eq_true] at hvis
    rw [hvis]
    by_cases hv : v = some p.author
    · simp [hvis, hv]
    · simp [hvis, hv]

/-- C2 witness: anonymous request for draft post 5 in `sampleDb` is 404. -/
theorem post_detail_not_found_iff_witness :
    postDetailView sampleDb 5 none 100 = .error .notFound :=
  (post_detail_not_found_iff sampleDb 5 none 100 pDraft rfl).1.mpr
    ⟨by decide, by decide⟩

/-- C3: in a profile listing, the owner sees every own post regardless of
publication state; any other viewer sees exactly the owner's publicly
visible posts. -/
theorem profile_listing_membership (db : Db) (uname : String) (v : Option Nat)
    (now : Int) (prof : UserRec) (l : List Post) (p : Post)
    (h : profileQueryset db uname v now = .ok (prof, l)) :
    (v = some prof.id → (p ∈ l ↔ p ∈ db.posts ∧ p.author = prof.id))
    ∧ (v ≠ some prof.id →
        (p ∈ l ↔ p ∈ db.posts ∧ p.author = prof.id
          ∧ is_visible_to_public db p now = true)) := by
  simp only [profileQueryset] at h
  split at h
  · exact absurd h (by simp)
  · split_ifs at h with hv
    · rw [Except.ok.injEq, Prod.mk.injEq] at h
      obtain ⟨rfl, rfl⟩ := h
      refine ⟨fun _ => ?_, fun hne => absurd hv hne⟩
      simp [mem_orderByPubDateDesc, List.mem_filter, beq_iff_eq]
    · rw [Except.ok.injEq, Prod.mk.injEq] at h
      obtain ⟨rfl, rfl⟩ := h
      refine ⟨fun heq => absurd heq hv, fun _ => ?_⟩
      simp only [mem_orderByPubDateDesc, List.mem_filter, is_visible_to_public,
        Bool.and_eq_true, beq_iff_eq, decide_eq_true_eq, and_assoc]

/-- C3 witness: alice sees her own draft in her profile listing. -/
theorem profile_listing_membership_witness :
    pDraft ∈ [pVisible, pDraft] ↔
      pDraft ∈ sampleDb.posts ∧ pDraft.author = uAlice.id :=
  (profile_listing_membership sampleDb "alice" (some 1) 100 uAlice
      [pVisible, pDraft] pDraft (by rfl)).1 (by rfl)

/-- C4: a post-edit request by any viewer other than the author leaves the
database — in particular every field (`title`, `text`, `pub_date`) of every
post — unchanged and redirects to the post's detail page. -/
theorem post_edit_nonauthor_frame (db : Db) (pid : Nat) (v : Option Nat)
    (d : PostFormData) (p : Post)
    (hp : db.posts.find? (fun q => q.id == pid) = some p)
    (hv : v ≠ some p.author) :
    postEditView db pid v d = (db, .redirect (postDetailUrl pid)) := by
  simp only [postEditView, hp]
  rw [if_pos hv]

/-- C4 witness: bob's attempt to edit alice's draft post 5 leaves
`sampleDb` unchanged and redirects to `/posts/5/`. -/
theorem post_edit_nonauthor_frame_witness :
    postEditView sampleDb 5 (some 2) pfX = (sampleDb, .redirect (postDetailUrl 5)) :=
  post_edit_nonauthor_frame sampleDb 5 (some 2) pfX pDraft rfl (by decide)

/-- C5 counterexample: an anonymous request to the login-required post-edit
route for existing post 5 redirects to the post's detail page `/posts/5/`,
not to the login page — `PostEditView.dispatch` runs its author check
before `LoginRequiredMixin`'s authentication check, and an anonymous
viewer never equals the author. -/
theorem post_edit_anonymous_not_login_cex :
    postEditView sampleDb 5 none pfX = (sampleDb, .redirect (postDetailUrl 5))
    ∧ postDetailUrl 5 ≠ loginUrl :=
  ⟨rfl, by decide⟩

/-- C5 amended: an anonymous request to post create, post delete, comment
create, comment edit, comment delete, or profile edit redirects to the
login page; an anonymous post-edit request for an existing post instead
redirects to that post's detail page. -/
theorem login_required_routes_anonymous (db : Db) (pid cid : Nat)
    (pd : PostFormData) (cd : ProfileFormData) (t : String) (now : Int) :
    postCreateView db none pd = (db, .redirect loginUrl)
    ∧ postDeleteView db pid none = (db, .redirect loginUrl)
    ∧ commentCreateView db pid none t now = (db, .redirect loginUrl)
    ∧ commentEditView db pid cid none t = (db, .redirect loginUrl)
    ∧ commentDeleteView db pid cid none = (db, .redirect loginUrl)
    ∧ profileEditView db none cd = (db, .redirect loginUrl)
    ∧ (∀ p, db.posts.find? (fun q => q.id == pid) = some p →
        postEditView db pid none pd = (db, .redirect (postDetailUrl pid))) := by
  refine ⟨rfl, rfl, rfl, rfl, rfl, rfl, fun p hp => ?_⟩
  simp only [postEditView, hp]
  rw [if_pos (fun h => Option.noConfusion h)]

/-- C5 amended witness: concrete anonymous requests against `sampleDb`. -/
theorem login_required_routes_anonymous_witness :
    postCreateView sampleDb none pfX = (sampleDb, .redirect loginUrl)
    ∧ postEditView sampleDb 5 none pfX = (sampleDb, .redirect (postDetailUrl 5)) :=
  ⟨(login_required_routes_anonymous sampleDb 5 1 pfX cfX "t" 0).1,
   (login_required_routes_anonymous sampleDb 5 1 pfX cfX "t" 0).2.2.2.2.2.2
     pDraft rfl⟩

/-- C6: a comment-delete request by an authenticated viewer who is not the
comment's author answers `PermissionDenied` (403) and returns the database
unchanged — in particular the stored comments, and with them the comment
count of the comment's post, are untouched. -/
theorem comment_delete_nonauthor_forbidden (db : Db) (pid cid u : Nat)
    (c : Comment)
    (hc : db.comments.find? (fun c2 => c2.id == cid) = some c)
    (hne : u ≠ c.author) :
    commentDeleteView db pid cid (some u) = (db, .forbidden) := by
  simp only [commentDeleteView, hc]
  rw [if_neg hne]

/-- C6 witness: bob cannot delete alice's comment; `sampleDb` is
unchanged. -/
theorem comment_delete_nonauthor_forbidden_witness :
    commentDeleteView sampleDb 1 1 (some 2) = (sampleDb, .forbidden) :=
  comment_delete_nonauthor_forbidden sampleDb 1 1 2 cm1 rfl (by decide)

/-- C7: a valid comment submission by an authenticated user on an existing
post appends exactly one comment, whose author is the submitting user and
whose post is the target post, and redirects to that post's detail page
with an anchor fragment naming the new comment's id. -/
theorem comment_create_appends_one (db : Db) (pid u : Nat) (t : String)
    (now : Int) (p : Post)
    (hp : db.posts.find? (fun q => q.id == pid) = some p) :
    ∃ c : Comment,
      (commentCreateView db pid (some u) t now).1.comments = db.comments ++ [c]
      ∧ c.author = u ∧ c.post = p.id ∧ p.id = pid
      ∧ (commentCreateView db pid (some u) t now).2
          = .redirect (withAnchor (postDetailUrl pid)
              ("comment" ++ Nat.repr c.id)) := by
  refine ⟨{ id := db.nextCommentId, text := t, created_at := now,
            author := u, post := p.id }, ?_, rfl, rfl, ?_, ?_⟩
  · simp [commentCreateView, hp]
  · have hbeq := List.find?_some hp
    simpa using hbeq
  · simp [commentCreateView, hp]

/-- C7 witness: bob comments on alice's visible post 1 in `sampleDb`. -/
theorem comment_create_appends_one_witness :
    ∃ c : Comment,
      (commentCreateView sampleDb 1 (some 2) "new" 60).1.comments
        = sampleDb.comments ++ [c]
      ∧ c.author = 2 ∧ c.post = pVisible.id ∧ pVisible.id = 1
      ∧ (commentCreateView sampleDb 1 (some 2) "new" 60).2
          = .redirect (withAnchor (postDetailUrl 1) ("comment" ++ Nat.repr c.id)) :=
  comment_create_appends_one sampleDb 1 2 "new" 60 pVisible rfl

/-- The resolved comment list of a post is sorted by creation time
ascending. -/
theorem commentsWithAuthors_sorted (db : Db) (p : Post) :
    List.Pairwise
      (fun a b : Comment × Option UserRec => a.1.created_at ≤ b.1.created_at)
      (commentsWithAuthors db p) := by
  have hs := List.sorted_insertionSort createdAtLe
    (db.comments.filter (fun c => c.post == p.id))
  exact List.Pairwise.map _ (fun a b hab => hab) hs

/-- Membership in the resolved comment list of a post: exactly the stored
comments of that post, each paired with the looked-up author row. -/
theorem commentsWithAuthors_mem (db : Db) (p : Post) (c : Comment)
    (ou : Option UserRec) :
    (c, ou) ∈ commentsWithAuthors db p ↔
      (c ∈ db.comments ∧ c.post = p.id
        ∧ ou = db.users.find? (fun u => u.id == c.author)) := by
  simp only [commentsWithAuthors, List.mem_map]
  constructor
  · rintro ⟨c2, hc2, heq⟩
    rw [Prod.mk.injEq] at heq
    obtain ⟨rfl, rfl⟩ := heq
    have hmem := (List.perm_insertionSort createdAtLe _).mem_iff.mp hc2
    rw [List.mem_filter] at hmem
    exact ⟨hmem.1, by simpa using hmem.2, rfl⟩
  · rintro ⟨h1, h2, rfl⟩
    exact ⟨c, (List.perm_insertionSort createdAtLe _).mem_iff.mpr
      (List.mem_filter.mpr ⟨h1, by simpa using h2⟩), rfl⟩

/-- C8: a successful post-detail response carries an empty
comment-submission form and the post's comments in creation-time-ascending
order, each with its author row resolved. -/
theorem post_detail_context_contents (db : Db) (pid : Nat) (v : Option Nat)
    (now : Int) (ctx : DetailContext)
    (h : postDetailView db pid v now = .ok ctx) :
    ctx.form_text = ""
    ∧ List.Pairwise
        (fun a b : Comment × Option UserRec => a.1.created_at ≤ b.1.created_at)
        ctx.comments
    ∧ ∀ c ou, ((c, ou) ∈ ctx.comments ↔
        (c ∈ db.comments ∧ c.post = ctx.post.id
          ∧ ou = db.users.find? (fun u => u.id == c.author))) := by
  simp only [postDetailView] at h
  split at h
  · exact Except.noConfusion h
  · split_ifs at h with hcond hauth
    all_goals
      first
      | exact Except.noConfusion h
      | (rw [Except.ok.injEq] at h
         subst h
         exact ⟨rfl, commentsWithAuthors_sorted db _,
           fun c ou => commentsWithAuthors_mem db _ c ou⟩)

/-- C8 witness: the detail context of visible post 1 in `sampleDb`. -/
theorem post_detail_context_contents_witness :
    ctx1.form_text = ""
    ∧ List.Pairwise
        (fun a b : Comment × Option UserRec => a.1.created_at ≤ b.1.created_at)
        ctx1.comments
    ∧ ((cm1, some uAlice) ∈ ctx1.comments ↔
        (cm1 ∈ sampleDb.comments ∧ cm1.post = ctx1.post.id
          ∧ some uAlice
              = sampleDb.users.find? (fun u => u.id == cm1.author))) :=
  ⟨(post_detail_context_contents sampleDb 1 none 100 ctx1 rfl).1,
   (post_detail_context_contents sampleDb 1 none 100 ctx1 rfl).2.1,
   (post_detail_context_contents sampleDb 1 none 100 ctx1 rfl).2.2
     cm1 (some uAlice)⟩

/-- C9 counterexample: alice successfully deletes her own comment 1 (it is
gone from the store), yet the redirect URL `/posts/1/` carries no anchor
fragment — the claim's "each ... contains an anchor fragment" fails for
comment delete. -/
theorem comment_delete_redirect_lacks_anchor_cex :
    (commentDeleteView sampleDb 1 1 (some 1)).2 = .redirect (postDetailUrl 1)
    ∧ (postDetailUrl 1).anchor = none
    ∧ (commentDeleteView sampleDb 1 1 (some 1)).1.comments = [] :=
  ⟨rfl, rfl, rfl⟩

/-- C9 amended: a successful comment edit by the author redirects to the
post's detail page with an anchor fragment (`#comment_{id}`); a successful
comment delete by the author redirects to the post detail page named by
the URL's `post_id` without any anchor fragment. -/
theorem comment_edit_delete_success_redirects (db : Db) (pid cid u : Nat)
    (t : String) (c : Comment)
    (hc : db.comments.find? (fun c2 => c2.id == cid) = some c)
    (ha : u = c.author) :
    (commentEditView db pid cid (some u) t).2
      = .redirect (withAnchor (postDetailUrl c.post) ("comment_" ++ Nat.repr c.id))
    ∧ ((withAnchor (postDetailUrl c.post)
        ("comment_" ++ Nat.repr c.id)).anchor).isSome = true
    ∧ (commentDeleteView db pid cid (some u)).2 = .redirect (postDetailUrl pid)
    ∧ (postDetailUrl pid).anchor = none := by
  subst ha
  refine ⟨?_, rfl, ?_, rfl⟩
  · simp [commentEditView, hc]
  · simp [commentDeleteView, hc]

/-- C9 amended witness: alice edits and deletes her own comment in
`sampleDb`. -/
theorem comment_edit_delete_success_redirects_witness :
    (commentEditView sampleDb 1 1 (some 1) "z").2
      = .redirect (withAnchor (postDetailUrl cm1.post)
          ("comment_" ++ Nat.repr cm1.id))
    ∧ ((withAnchor (postDetailUrl cm1.post)
        ("comment_" ++ Nat.repr cm1.id)).anchor).isSome = true
    ∧ (commentDeleteView sampleDb 1 1 (some 1)).2 = .redirect (postDetailUrl 1)
    ∧ (postDetailUrl 1).anchor = none :=
  comment_edit_delete_success_redirects sampleDb 1 1 1 "z" cm1 rfl rfl

/-- C10: comment edit and delete fetch their target and decide
authorization from `comment_id` alone — the resulting store, the
forbidden-or-not decision, and (for edit) the whole response are the same
for any two values of the `post_id` path parameter; a successful delete
redirects to the detail page of the URL-supplied `post_id` verbatim (even
when it differs from the comment's actual post), while a successful edit
redirects to the comment's actual post. -/
theorem comment_views_use_comment_id_only (db : Db) (pid pid' cid : Nat)
    (v : Option Nat) (t : String) (u : Nat) (c : Comment)
    (hv : v = some u)
    (hc : db.comments.find? (fun c2 => c2.id == cid) = some c)
    (ha : u = c.author) :
    (∀ w : Option Nat, ∀ q q' : Nat,
        (commentDeleteView db q cid w).1 = (commentDeleteView db q' cid w).1
        ∧ ((commentDeleteView db q cid w).2 = .forbidden ↔
            (commentDeleteView db q' cid w).2 = .forbidden)
        ∧ commentEditView db q cid w t = commentEditView db q' cid w t)
    ∧ (commentDeleteView db pid cid v).2 = .redirect (postDetailUrl pid)
    ∧ (commentEditView db pid cid v t).2
        = .redirect (withAnchor (postDetailUrl c.post)
            ("comment_" ++ Nat.repr c.id)) := by
  subst hv
  subst ha
  refine ⟨?_, ?_, ?_⟩
  · intro w q q'
    cases w with
    | none => exact ⟨rfl, Iff.rfl, rfl⟩
    | some x =>
      simp only [commentDeleteView, commentEditView]
      cases hf : db.comments.find? (fun c2 => c2.id == cid) with
      | none => simp
      | some c2 =>
        by_cases hx : x = c2.author <;> simp [hx]
  · simp [commentDeleteView, hc]
  · simp [commentEditView, hc]

/-- C10 witness: with URL `post_id = 9` differing from comment 1's actual
post 1, delete redirects to `/posts/9/` while edit redirects to
`/posts/1/#comment_1`. -/
theorem comment_views_use_comment_id_only_witness :
    (commentDeleteView sampleDb 9 1 (some 1)).2 = .redirect (postDetailUrl 9)
    ∧ (commentEditView sampleDb 9 1 (some 1) "z").2
        = .redirect (withAnchor (postDetailUrl cm1.post)
            ("comment_" ++ Nat.repr cm1.id)) :=
  ⟨(comment_views_use_comment_id_only sampleDb 9 7 1 (some 1) "z" 1 cm1
      rfl rfl rfl).2.1,
   (comment_views_use_comment_id_only sampleDb 9 7 1 (some 1) "z" 1 cm1
      rfl rfl rfl).2.2⟩
